import Mathlib

/-!
Shallow embedding of the snapshot restoration service
(ethcore/src/snapshot/service.rs) of the parity repository.

Byte strings are lists of naturals, chunk ids (H256 hashes) are naturals,
filesystem paths are lists of path-component strings.  The filesystem is a
flat list of directory subtrees: an entry (p, c) means the directory tree
rooted at p exists and has abstract content c.  External collaborators
(snappy decompression, the state and block rebuilders, the key-value
Database and the chain spec) are abstracted into an environment of
functions and flags, mirroring exactly the call sites in the source.
-/

set_option maxRecDepth 4000

abbrev Bytes := List Nat
abbrev H256 := Nat
abbrev FsPath := List String

/-- The two io error kinds the source inspects (ErrorKind), plus a
catch-all for other io failures. -/
inductive FsError where
  | notFound
  | permissionDenied
  | other
deriving DecidableEq, Repr

/-- Embedding of the error type: io errors, snappy decompression errors,
rebuilder feed errors, and the construction failures of Restoration.new
(Database.open_default, the version-marker put, BlockRebuilder.new). -/
inductive Error where
  | io : FsError → Error
  | snappy : Error
  | stateRebuild : Error
  | blockRebuild : Error
  | dbOpen : Error
  | dbPut : Error
  | chainInit : Error
deriving DecidableEq, Repr

/-- Filesystem state: existing directory subtrees with abstract contents,
plus a set of paths that cannot be deleted (modelling permission errors
on remove_dir_all). -/
structure FS where
  dirs : List (FsPath × Nat)
  locked : List FsPath
deriving DecidableEq, Repr

/-- A directory exists when some tracked subtree lies at or below it. -/
def FS.existsDir (fs : FS) (p : FsPath) : Bool :=
  fs.dirs.any (fun e => List.isPrefixOf p e.1)

/-- std::fs::remove_dir_all: NotFound when the path does not exist,
PermissionDenied when a locked path lies inside the subtree, otherwise
removes the whole subtree. -/
def FS.removeDirAll (fs : FS) (p : FsPath) : Except FsError FS :=
  if fs.existsDir p then
    if fs.locked.any (fun l => List.isPrefixOf p l) then
      .error .permissionDenied
    else
      .ok { fs with dirs := fs.dirs.filter (fun e => !(List.isPrefixOf p e.1)) }
  else .error .notFound

/-- std::fs::rename on directories: NotFound when the source does not
exist, otherwise moves the whole subtree under src to dst. -/
def FS.rename (fs : FS) (src dst : FsPath) : Except FsError FS :=
  if fs.existsDir src then
    .ok { fs with
      dirs := fs.dirs.map (fun e =>
        if List.isPrefixOf src e.1 then (dst ++ e.1.drop src.length, e.2) else e) }
  else .error .notFound

/-- std::fs::create_dir_all: succeeds when the path already exists,
otherwise creates an empty directory there (content 0). -/
def FS.createDirAll (fs : FS) (p : FsPath) : Except FsError FS :=
  if fs.existsDir p then .ok fs else .ok { fs with dirs := (p, 0) :: fs.dirs }

/-- Abstract state of a BlockRebuilder: the decompressed payloads fed so
far, and whether glue_chunks has run. -/
structure BlocksState where
  fed : List Bytes
  glued : Bool
deriving DecidableEq, Repr

/-- Environment abstracting the external collaborators: snappy
decompression (none = decompression error), success predicates for
StateRebuilder.feed and BlockRebuilder.feed (the latter including header
verification by the engine), and the success flags of the three fallible
steps inside Restoration.new. -/
structure Env where
  decompress : Bytes → Option Bytes
  stateFeedOk : List Bytes → Bytes → Bool
  blockFeedOk : BlocksState → Bytes → Bool
  dbOpenOk : Bool
  dbPutOk : Bool
  blocksNewOk : Bool

/-- ManifestData: the state- and block-chunk hash lists. -/
structure ManifestData where
  state_hashes : List H256
  block_hashes : List H256
deriving DecidableEq, Repr

/-- Statuses for restorations (enum RestorationStatus). -/
inductive RestorationStatus where
  | Inactive
  | Ongoing
  | Failed
deriving DecidableEq, Repr

/-- struct Restoration: outstanding chunk-id sets, the two rebuilders
(the StateRebuilder abstracted as its list of fed payloads) and the
reusable snappy buffer. -/
structure Restoration where
  state_chunks_left : Finset H256
  block_chunks_left : Finset H256
  state : List Bytes
  blocks : BlocksState
  snappy_buffer : Bytes
deriving DecidableEq

/-- Restoration.new: opens the state database, writes the version marker,
builds the BlockRebuilder; each step can fail (abstracted by the env
flags).  On success the outstanding sets are the manifest hash sets, the
rebuilders fresh and the buffer empty. -/
def Restoration.new (env : Env) (manifest : ManifestData) : Except Error Restoration :=
  if !env.dbOpenOk then .error .dbOpen
  else if !env.dbPutOk then .error .dbPut
  else if !env.blocksNewOk then .error .chainInit
  else .ok {
    state_chunks_left := manifest.state_hashes.toFinset
    block_chunks_left := manifest.block_hashes.toFinset
    state := []
    blocks := { fed := [], glued := false }
    snappy_buffer := [] }

/-- Restoration.feed_state.  Rust mutates in place, so the pair returned
is the restoration state as left by the call together with the optional
error: the membership test state_chunks_left.remove(hash) removes the id
first, then decompression and the rebuilder feed may fail. -/
def Restoration.feed_state (env : Env) (r : Restoration) (hash : H256) (chunk : Bytes) :
    Restoration × Option Error :=
  if hash ∈ r.state_chunks_left then
    let r1 := { r with state_chunks_left := r.state_chunks_left.erase hash }
    match env.decompress chunk with
    | none => (r1, some .snappy)
    | some payload =>
      let r2 := { r1 with snappy_buffer := payload }
      if env.stateFeedOk r2.state payload then
        ({ r2 with state := r2.state ++ [payload] }, none)
      else (r2, some .stateRebuild)
  else (r, none)

/-- Restoration.feed_blocks: same shape as feed_state, targeting the
BlockRebuilder; when the successful feed empties block_chunks_left the
rebuilder glues the out-of-order chunks. -/
def Restoration.feed_blocks (env : Env) (r : Restoration) (hash : H256) (chunk : Bytes) :
    Restoration × Option Error :=
  if hash ∈ r.block_chunks_left then
    let r1 := { r with block_chunks_left := r.block_chunks_left.erase hash }
    match env.decompress chunk with
    | none => (r1, some .snappy)
    | some payload =>
      let r2 := { r1 with snappy_buffer := payload }
      if env.blockFeedOk r2.blocks payload then
        let r3 := { r2 with blocks := { fed := r2.blocks.fed ++ [payload], glued := r2.blocks.glued } }
        if r3.block_chunks_left = ∅ then
          ({ r3 with blocks := { fed := r3.blocks.fed, glued := true } }, none)
        else (r3, none)
      else (r2, some .blockRebuild)
  else (r, none)

/-- Restoration.is_done: both outstanding sets are empty. -/
def Restoration.is_done (r : Restoration) : Bool :=
  decide (r.block_chunks_left = ∅) && decide (r.state_chunks_left = ∅)

/-- LooseReader over the last completed snapshot: its manifest and the
stored raw chunks by hash. -/
structure LooseReader where
  manifest : ManifestData
  chunks : List (H256 × Bytes)
deriving DecidableEq, Repr

/-- LooseReader.chunk: raw chunk bytes by hash, as read by the service
(errors collapsed to none by .ok()). -/
def LooseReader.chunk (rd : LooseReader) (hash : H256) : Option Bytes :=
  (rd.chunks.find? (fun e => e.1 = hash)).map (fun e => e.2)

/-- The immutable configuration of struct Service: the db path and the
pruning-dependent client db root (get_db_path db_path pruning). -/
structure ServiceConfig where
  db_path : FsPath
  client_db_root : FsPath
deriving DecidableEq, Repr

/-- Service.snapshot_dir. -/
def ServiceConfig.snapshot_dir (c : ServiceConfig) : FsPath :=
  c.db_path ++ ["snapshot"]

/-- Service.restoration_dir. -/
def ServiceConfig.restoration_dir (c : ServiceConfig) : FsPath :=
  c.snapshot_dir ++ ["restoration"]

/-- The mutable state of struct Service: the optional Restoration, the
status, the filesystem it manipulates and the optional reader over the
last completed snapshot. -/
structure ServiceState where
  restoration : Option Restoration
  status : RestorationStatus
  fs : FS
  reader : Option LooseReader
deriving DecidableEq

/-- Service.replace_client_db: remove a stale backup (result ignored),
rename the live db to the backup location tolerating NotFound, rename the
restoration copy into the live location; on success remove the backup if
one was made, on failure rename the backup copy back before reporting the
error.  Rust mutates the filesystem in place, so the pair returned is the
filesystem as left by the call together with the optional error. -/
def Service.replace_client_db (c : ServiceConfig) (fs : FS) (name : String) :
    FS × Option Error :=
  let client_db := c.client_db_root ++ [name]
  let our_db := c.restoration_dir ++ [name]
  let backup_db := c.db_path ++ ["backup_" ++ name]
  let fs1 := match fs.removeDirAll backup_db with
    | .ok f => f
    | .error _ => fs
  let step2 : (FS × Bool) ⊕ (FS × Option Error) :=
    match fs1.rename client_db backup_db with
    | .ok f => .inl (f, true)
    | .error e =>
      match e with
      | .notFound => .inl (fs1, false)
      | _ => .inr (fs1, some (.io e))
  match step2 with
  | .inr out => out
  | .inl (fs2, existed) =>
    match fs2.rename our_db client_db with
    | .ok fs3 =>
      if existed then
        match fs3.removeDirAll backup_db with
        | .ok fs4 => (fs4, none)
        | .error e => (fs3, some (.io e))
      else (fs3, none)
    | .error e =>
      if existed then
        match fs2.rename backup_db client_db with
        | .ok fs3 => (fs3, some (.io e))
        | .error e2 => (fs2, some (.io e2))
      else (fs2, some (.io e))

/-- Service.finalize_restoration: destroy the Restoration first, then
swap the three stores in the fixed order state, blocks, extras; if all
three succeed, set status Inactive and delete the restoration directory
tree (result ignored). -/
def Service.finalize_restoration (c : ServiceConfig) (s : ServiceState) :
    ServiceState × Option Error :=
  let s1 := { s with restoration := none }
  match Service.replace_client_db c s1.fs "state" with
  | (f, some e) => ({ s1 with fs := f }, some e)
  | (f1, none) =>
    match Service.replace_client_db c f1 "blocks" with
    | (f, some e) => ({ s1 with fs := f }, some e)
    | (f2, none) =>
      match Service.replace_client_db c f2 "extras" with
      | (f, some e) => ({ s1 with fs := f }, some e)
      | (f3, none) =>
        let f4 := match f3.removeDirAll c.restoration_dir with
          | .ok f => f
          | .error _ => f3
        ({ s1 with status := .Inactive, fs := f4 }, none)

/-- Service.feed_chunk: no-op when status is Inactive or Failed, or when
Ongoing with no Restoration present; otherwise delegate to
feed_state/feed_blocks and, when the successful feed reports is_done,
finalize. -/
def Service.feed_chunk (env : Env) (c : ServiceConfig) (s : ServiceState)
    (hash : H256) (chunk : Bytes) (is_state : Bool) : ServiceState × Option Error :=
  match s.status with
  | .Inactive => (s, none)
  | .Failed => (s, none)
  | .Ongoing =>
    match s.restoration with
    | none => (s, none)
    | some r =>
      let fed := if is_state then Restoration.feed_state env r hash chunk
                 else Restoration.feed_blocks env r hash chunk
      match fed.2 with
      | some e => ({ s with restoration := some fed.1 }, some e)
      | none =>
        if fed.1.is_done then
          Service.finalize_restoration c { s with restoration := some fed.1 }
        else ({ s with restoration := some fed.1 }, none)

/-- Service.feed_state_chunk: on any propagated error, drop the
Restoration, set status Failed and delete the restoration directory
(result ignored). -/
def Service.feed_state_chunk (env : Env) (c : ServiceConfig) (s : ServiceState)
    (hash : H256) (chunk : Bytes) : ServiceState :=
  match Service.feed_chunk env c s hash chunk true with
  | (s1, none) => s1
  | (s1, some _) =>
    let f := match s1.fs.removeDirAll c.restoration_dir with
      | .ok f => f
      | .error _ => s1.fs
    { s1 with restoration := none, status := .Failed, fs := f }

/-- Service.feed_block_chunk: same error handling as feed_state_chunk. -/
def Service.feed_block_chunk (env : Env) (c : ServiceConfig) (s : ServiceState)
    (hash : H256) (chunk : Bytes) : ServiceState :=
  match Service.feed_chunk env c s hash chunk false with
  | (s1, none) => s1
  | (s1, some _) =>
    let f := match s1.fs.removeDirAll c.restoration_dir with
      | .ok f => f
      | .error _ => s1.fs
    { s1 with restoration := none, status := .Failed, fs := f }

/-- SnapshotService.manifest for Service: the manifest of the last
completed snapshot, through the reader. -/
def ServiceState.manifest (s : ServiceState) : Option ManifestData :=
  s.reader.map (fun rd => rd.manifest)

/-- SnapshotService.chunk for Service: a completed snapshot chunk by
hash, through the reader. -/
def ServiceState.chunk (s : ServiceState) (hash : H256) : Option Bytes :=
  s.reader.bind (fun rd => rd.chunk hash)

/-- SnapshotService.begin_restore for Service: tear down any existing
Restoration, run remove_dir_all(rest_dir).and_then(create_dir_all(rest_dir))
tolerating NotFound (note the and_then: when remove fails the create does
not run), construct a new Restoration, and only then set status Ongoing.
Returns the state as left by the call and the boolean result. -/
def Service.begin_restore (env : Env) (c : ServiceConfig) (s : ServiceState)
    (manifest : ManifestData) : ServiceState × Bool :=
  let rd := c.restoration_dir
  let s1 := { s with restoration := none }
  let step : Except FsError FS :=
    (s1.fs.removeDirAll rd).bind (fun f => f.createDirAll rd)
  let next : (FS ⊕ Unit) :=
    match step with
    | .ok f => .inl f
    | .error .notFound => .inl s1.fs
    | .error _ => .inr ()
  match next with
  | .inr _ => (s1, false)
  | .inl fs2 =>
    match Restoration.new env manifest with
    | .error _ => ({ s1 with fs := fs2 }, false)
    | .ok r => ({ s1 with fs := fs2, restoration := some r, status := .Ongoing }, true)

/-- Environment in which every external collaborator succeeds and
decompression is the identity. -/
def envOk : Env :=
  { decompress := fun b => some b
    stateFeedOk := fun _ _ => true
    blockFeedOk := fun _ _ => true
    dbOpenOk := true
    dbPutOk := true
    blocksNewOk := true }

/-- Environment whose snappy decompression always fails. -/
def envBadSnappy : Env := { envOk with decompress := fun _ => none }

/-- Environment whose block rebuilder rejects every payload (header
verification failure). -/
def envBadBlocks : Env := { envOk with blockFeedOk := fun _ _ => false }

/-- Sample service configuration. -/
def cfg0 : ServiceConfig := { db_path := ["d"], client_db_root := ["d", "db"] }

/-- Sample restoration with one outstanding state chunk (id 5) and one
outstanding block chunk (id 7). -/
def rest0 : Restoration :=
  { state_chunks_left := {5}
    block_chunks_left := {7}
    state := []
    blocks := { fed := [], glued := false }
    snappy_buffer := [] }

/-- Sample restoration with only state chunk 5 outstanding. -/
def rest1 : Restoration :=
  { state_chunks_left := {5}
    block_chunks_left := ∅
    state := []
    blocks := { fed := [], glued := true }
    snappy_buffer := [] }

/-- Sample filesystem holding the three rebuilt stores under the
restoration directory of cfg0, with no live client stores. -/
def fs0 : FS :=
  { dirs := [ (["d", "snapshot", "restoration"], 0),
              (["d", "snapshot", "restoration", "state"], 1),
              (["d", "snapshot", "restoration", "blocks"], 2),
              (["d", "snapshot", "restoration", "extras"], 3) ]
    locked := [] }

/-- Sample reader over a previously completed snapshot. -/
def reader0 : LooseReader :=
  { manifest := { state_hashes := [5], block_hashes := [7] }
    chunks := [(5, [1, 2])] }

/-- Sample manifest. -/
def m0 : ManifestData := { state_hashes := [5], block_hashes := [7] }

/-- Service state with an ongoing restoration rest0. -/
def sOngoing : ServiceState :=
  { restoration := some rest0, status := .Ongoing, fs := fs0, reader := some reader0 }

/-- Service state with status Inactive. -/
def sInactive : ServiceState :=
  { restoration := none, status := .Inactive, fs := fs0, reader := some reader0 }

/-- Service state with status Ongoing but no Restoration held. -/
def sNoRest : ServiceState :=
  { restoration := none, status := .Ongoing, fs := fs0, reader := some reader0 }

/-- Service state one state chunk away from completion. -/
def sAlmost : ServiceState :=
  { restoration := some rest1, status := .Ongoing, fs := fs0, reader := some reader0 }

/-- Filesystem whose restoration directory cannot be removed
(permission denied). -/
def fsLocked : FS :=
  { dirs := [ (["d", "snapshot", "restoration"], 0) ]
    locked := [ ["d", "snapshot", "restoration"] ] }

/-- Service state whose restoration directory deletion is blocked by a
permissions error, during an ongoing restoration. -/
def sLocked : ServiceState :=
  { restoration := some rest0, status := .Ongoing, fs := fsLocked, reader := some reader0 }

/-- Service state with no restoration directory on disk at all (the state
right after Service.new, which removes it). -/
def sFreshBoot : ServiceState :=
  { restoration := none, status := .Inactive
    fs := { dirs := [ (["d", "snapshot"], 0) ], locked := [] }
    reader := none }

/-- Filesystem with a live client state store but no restoration copy,
so the swap of "state" fails at the rename into the live location. -/
def fsB : FS := { dirs := [ (["d", "db", "state"], 4) ], locked := [] }

lemma feed_state_absent (env : Env) (r : Restoration) (hash : H256) (chunk : Bytes)
    (h : hash ∉ r.state_chunks_left) :
    Restoration.feed_state env r hash chunk = (r, none) := by
  simp [Restoration.feed_state, h]

lemma feed_blocks_absent (env : Env) (r : Restoration) (hash : H256) (chunk : Bytes)
    (h : hash ∉ r.block_chunks_left) :
    Restoration.feed_blocks env r hash chunk = (r, none) := by
  simp [Restoration.feed_blocks, h]

lemma feed_state_not_mem (env : Env) (r : Restoration) (hash : H256) (chunk : Bytes) :
    hash ∉ (Restoration.feed_state env r hash chunk).1.state_chunks_left := by
  by_cases h : hash ∈ r.state_chunks_left
  · unfold Restoration.feed_state
    simp only [h, if_pos]
    cases env.decompress chunk with
    | none => simp
    | some payload =>
      by_cases hf : env.stateFeedOk r.state payload <;> simp [hf]
  · simp [feed_state_absent env r hash chunk h, h]

lemma feed_blocks_not_mem (env : Env) (r : Restoration) (hash : H256) (chunk : Bytes) :
    hash ∉ (Restoration.feed_blocks env r hash chunk).1.block_chunks_left := by
  by_cases h : hash ∈ r.block_chunks_left
  · unfold Restoration.feed_blocks
    simp only [h, if_pos]
    cases env.decompress chunk with
    | none => simp
    | some payload =>
      by_cases hf : env.blockFeedOk r.blocks payload
      · simp only [hf, if_pos]
        by_cases he : r.block_chunks_left.erase hash = ∅ <;> simp [he]
      · simp [hf]
  · simp [feed_blocks_absent env r hash chunk h, h]

lemma feed_chunk_not_ongoing (env : Env) (c : ServiceConfig) (s : ServiceState)
    (hash : H256) (chunk : Bytes) (b : Bool)
    (h : s.status = .Inactive ∨ s.status = .Failed) :
    Service.feed_chunk env c s hash chunk b = (s, none) := by
  rcases h with h | h <;> simp [Service.feed_chunk, h]

lemma wrappers_not_ongoing (env : Env) (c : ServiceConfig) (s : ServiceState)
    (hash : H256) (chunk : Bytes)
    (h : s.status = .Inactive ∨ s.status = .Failed) :
    Service.feed_state_chunk env c s hash chunk = s ∧
    Service.feed_block_chunk env c s hash chunk = s := by
  constructor
  · simp [Service.feed_state_chunk, feed_chunk_not_ongoing env c s hash chunk true h]
  · simp [Service.feed_block_chunk, feed_chunk_not_ongoing env c s hash chunk false h]

lemma feed_chunk_no_restoration (env : Env) (c : ServiceConfig) (s : ServiceState)
    (hash : H256) (chunk : Bytes) (b : Bool)
    (h1 : s.status = .Ongoing) (h2 : s.restoration = none) :
    Service.feed_chunk env c s hash chunk b = (s, none) := by
  simp [Service.feed_chunk, h1, h2]

/-- C1, counterexample: feeding outstanding state-chunk id 5 with failing
decompression returns a decompression error, yet id 5 has been removed
from the outstanding set — the membership test state_chunks_left.remove
removes it before decompression runs, so the claim that the id is not
removed on error is false. -/
theorem feed_error_removes_id_counterexample :
    (Restoration.feed_state envBadSnappy rest0 5 [1]).2 = some Error.snappy ∧
    5 ∈ rest0.state_chunks_left ∧
    5 ∉ (Restoration.feed_state envBadSnappy rest0 5 [1]).1.state_chunks_left := by
  decide

/-- C1 (amended): when feed_state or feed_blocks is given an outstanding
chunk id, the id is removed from the outstanding set up front, whether
the call then fails with a decompression or rebuild error or succeeds:
the resulting outstanding set is always the original with the id erased. -/
theorem feed_error_id_already_removed (env : Env) (r : Restoration)
    (hash : H256) (chunk : Bytes) :
    (hash ∈ r.state_chunks_left →
      (Restoration.feed_state env r hash chunk).1.state_chunks_left
        = r.state_chunks_left.erase hash) ∧
    (hash ∈ r.block_chunks_left →
      (Restoration.feed_blocks env r hash chunk).1.block_chunks_left
        = r.block_chunks_left.erase hash) := by
  constructor
  · intro h
    unfold Restoration.feed_state
    simp only [h, if_pos]
    cases env.decompress chunk with
    | none => simp
    | some payload =>
      by_cases hf : env.stateFeedOk r.state payload <;> simp [hf]
  · intro h
    unfold Restoration.feed_blocks
    simp only [h, if_pos]
    cases env.decompress chunk with
    | none => simp
    | some payload =>
      by_cases hf : env.blockFeedOk r.blocks payload
      · simp only [hf, if_pos]
        by_cases he : r.block_chunks_left.erase hash = ∅ <;> simp [he]
      · simp [hf]

/-- C1 witness: the amended statement evaluated on the failing
decompression example. -/
theorem feed_error_id_already_removed_witness :
    (Restoration.feed_state envBadSnappy rest0 5 [1]).1.state_chunks_left
      = rest0.state_chunks_left.erase 5 :=
  (feed_error_id_already_removed envBadSnappy rest0 5 [1]).1 (by decide)

/-- C4: feeding a chunk id absent from the corresponding outstanding set
returns success and leaves the Restoration unchanged, and since any feed
leaves its id out of the set, feeding the same id a second time is the
identity on the Restoration: no decompression result, rebuilder change
or set change is observable. -/
theorem feed_absent_id_noop_and_idempotent (env : Env) (r : Restoration)
    (hash : H256) (chunk chunk2 : Bytes) :
    (hash ∉ r.state_chunks_left → Restoration.feed_state env r hash chunk = (r, none)) ∧
    (hash ∉ r.block_chunks_left → Restoration.feed_blocks env r hash chunk = (r, none)) ∧
    Restoration.feed_state env (Restoration.feed_state env r hash chunk).1 hash chunk2
      = ((Restoration.feed_state env r hash chunk).1, none) ∧
    Restoration.feed_blocks env (Restoration.feed_blocks env r hash chunk).1 hash chunk2
      = ((Restoration.feed_blocks env r hash chunk).1, none) :=
  ⟨feed_state_absent env r hash chunk,
   feed_blocks_absent env r hash chunk,
   feed_state_absent env _ hash chunk2 (feed_state_not_mem env r hash chunk),
   feed_blocks_absent env _ hash chunk2 (feed_blocks_not_mem env r hash chunk)⟩

/-- C4 witness: feeding id 9, absent from the sample outstanding sets, is
a successful no-op. -/
theorem feed_absent_id_noop_witness :
    Restoration.feed_state envOk rest0 9 [1] = (rest0, none) :=
  (feed_absent_id_noop_and_idempotent envOk rest0 9 [1] [2]).1 (by decide)

/-- C9: when status is Inactive or Failed, feed_chunk returns success
with the service state unchanged (no restoration access, no outstanding
set or rebuilder mutation, no status change), and both wrappers return
the state unchanged. -/
theorem feed_noop_when_inactive_or_failed (env : Env) (c : ServiceConfig)
    (s : ServiceState) (hash : H256) (chunk : Bytes) (b : Bool)
    (h : s.status = .Inactive ∨ s.status = .Failed) :
    Service.feed_chunk env c s hash chunk b = (s, none) ∧
    Service.feed_state_chunk env c s hash chunk = s ∧
    Service.feed_block_chunk env c s hash chunk = s :=
  ⟨feed_chunk_not_ongoing env c s hash chunk b h,
   (wrappers_not_ongoing env c s hash chunk h).1,
   (wrappers_not_ongoing env c s hash chunk h).2⟩

/-- C9 witness: feeding into the Inactive sample state changes nothing. -/
theorem feed_noop_when_inactive_witness :
    Service.feed_state_chunk envOk cfg0 sInactive 5 [1] = sInactive :=
  (feed_noop_when_inactive_or_failed envOk cfg0 sInactive 5 [1] true (Or.inl rfl)).2.1

/-- C10: when status is Ongoing but the service holds no Restoration,
feed_chunk returns success with the service state unchanged, and both
wrappers return the state unchanged: no error, no status change, no
filesystem change. -/
theorem feed_noop_when_restoration_missing (env : Env) (c : ServiceConfig)
    (s : ServiceState) (hash : H256) (chunk : Bytes) (b : Bool)
    (h1 : s.status = .Ongoing) (h2 : s.restoration = none) :
    Service.feed_chunk env c s hash chunk b = (s, none) ∧
    Service.feed_state_chunk env c s hash chunk = s ∧
    Service.feed_block_chunk env c s hash chunk = s := by
  refine ⟨feed_chunk_no_restoration env c s hash chunk b h1 h2, ?_, ?_⟩
  · simp [Service.feed_state_chunk, feed_chunk_no_restoration env c s hash chunk true h1 h2]
  · simp [Service.feed_block_chunk, feed_chunk_no_restoration env c s hash chunk false h1 h2]

/-- C10 witness: feeding into the Ongoing-without-Restoration sample
state changes nothing. -/
theorem feed_noop_when_restoration_missing_witness :
    Service.feed_block_chunk envOk cfg0 sNoRest 7 [1] = sNoRest :=
  (feed_noop_when_restoration_missing envOk cfg0 sNoRest 7 [1] false rfl rfl).2.2

lemma finalize_status_of_ok (c : ServiceConfig) (s : ServiceState)
    (h : (Service.finalize_restoration c s).2 = none) :
    (Service.finalize_restoration c s).1.status = RestorationStatus.Inactive := by
  unfold Service.finalize_restoration at h ⊢
  dsimp only at h ⊢
  rcases h1 : Service.replace_client_db c s.fs "state" with ⟨f1, e1⟩
  rw [h1] at h
  cases e1 with
  | some e => exact Option.noConfusion h
  | none =>
    dsimp only at h ⊢
    rcases h2 : Service.replace_client_db c f1 "blocks" with ⟨f2, e2⟩
    rw [h2] at h
    cases e2 with
    | some e => exact Option.noConfusion h
    | none =>
      dsimp only at h ⊢
      rcases h3 : Service.replace_client_db c f2 "extras" with ⟨f3, e3⟩
      rw [h3] at h
      cases e3 with
      | some e => exact Option.noConfusion h
      | none => rfl

lemma feed_state_chunk_status_of_finalize (env : Env) (c : ServiceConfig)
    (s s2 : ServiceState) (hash : H256) (chunk : Bytes)
    (h : Service.feed_chunk env c s hash chunk true = Service.finalize_restoration c s2) :
    (Service.feed_state_chunk env c s hash chunk).status = RestorationStatus.Inactive ∨
    (Service.feed_state_chunk env c s hash chunk).status = RestorationStatus.Failed := by
  unfold Service.feed_state_chunk
  rcases hF : Service.finalize_restoration c s2 with ⟨sF, eF⟩
  rw [h, hF]
  cases eF with
  | none =>
    left
    have hs := finalize_status_of_ok c s2 (by rw [hF])
    rw [hF] at hs
    simpa using hs
  | some e => right; rfl

lemma feed_block_chunk_status_of_finalize (env : Env) (c : ServiceConfig)
    (s s2 : ServiceState) (hash : H256) (chunk : Bytes)
    (h : Service.feed_chunk env c s hash chunk false = Service.finalize_restoration c s2) :
    (Service.feed_block_chunk env c s hash chunk).status = RestorationStatus.Inactive ∨
    (Service.feed_block_chunk env c s hash chunk).status = RestorationStatus.Failed := by
  unfold Service.feed_block_chunk
  rcases hF : Service.finalize_restoration c s2 with ⟨sF, eF⟩
  rw [h, hF]
  cases eF with
  | none =>
    left
    have hs := finalize_status_of_ok c s2 (by rw [hF])
    rw [hF] at hs
    simpa using hs
  | some e => right; rfl

/-- C5: is_done holds iff both outstanding sets are empty; when a feed
succeeds and the resulting restoration reports is_done, feed_chunk
invokes finalize_restoration on it, and after the wrapper call the
status is Inactive or Failed — states in which (last conjunct) both
wrappers are the identity, so finalize cannot be invoked again. -/
theorem is_done_iff_and_finalize_once :
    (∀ r : Restoration, r.is_done = true ↔
      (r.block_chunks_left = ∅ ∧ r.state_chunks_left = ∅)) ∧
    (∀ (env : Env) (c : ServiceConfig) (s : ServiceState) (hash : H256)
       (chunk : Bytes) (is_state : Bool) (r : Restoration)
       (fed : Restoration × Option Error),
      s.status = .Ongoing → s.restoration = some r →
      fed = (if is_state then Restoration.feed_state env r hash chunk
             else Restoration.feed_blocks env r hash chunk) →
      fed.2 = none → fed.1.is_done = true →
        Service.feed_chunk env c s hash chunk is_state
          = Service.finalize_restoration c { s with restoration := some fed.1 } ∧
        ((if is_state then Service.feed_state_chunk env c s hash chunk
          else Service.feed_block_chunk env c s hash chunk).status = .Inactive ∨
         (if is_state then Service.feed_state_chunk env c s hash chunk
          else Service.feed_block_chunk env c s hash chunk).status = .Failed)) ∧
    (∀ (env : Env) (c : ServiceConfig) (s : ServiceState) (hash : H256) (chunk : Bytes),
      (s.status = .Inactive ∨ s.status = .Failed) →
        Service.feed_state_chunk env c s hash chunk = s ∧
        Service.feed_block_chunk env c s hash chunk = s) := by
  refine ⟨?_, ?_, ?_⟩
  · intro r
    simp [Restoration.is_done]
  · intro env c s hash chunk is_state r fed hs hr hfed hok hdone
    have hmain : Service.feed_chunk env c s hash chunk is_state
        = Service.finalize_restoration c { s with restoration := some fed.1 } := by
      unfold Service.feed_chunk
      rw [hs, hr]
      simp only [← hfed, hok, hdone, if_pos]
    refine ⟨hmain, ?_⟩
    cases is_state with
    | true =>
      simpa using feed_state_chunk_status_of_finalize env c s
        { s with restoration := some fed.1 } hash chunk hmain
    | false =>
      simpa using feed_block_chunk_status_of_finalize env c s
        { s with restoration := some fed.1 } hash chunk hmain
  · intro env c s hash chunk h
    exact wrappers_not_ongoing env c s hash chunk h

/-- C5 witness: feeding the last outstanding state chunk of the sample
state invokes finalize on the fed restoration. -/
theorem is_done_iff_and_finalize_once_witness :
    Service.feed_chunk envOk cfg0 sAlmost 5 [9] true
      = Service.finalize_restoration cfg0
          { sAlmost with restoration := some (Restoration.feed_state envOk rest1 5 [9]).1 } :=
  (is_done_iff_and_finalize_once.2.1 envOk cfg0 sAlmost 5 [9] true rest1
    (Restoration.feed_state envOk rest1 5 [9]) rfl rfl (by simp) (by decide) (by decide)).1

lemma begin_restore_cases (env : Env) (c : ServiceConfig) (s : ServiceState)
    (m : ManifestData) :
    ((Service.begin_restore env c s m).2 = true ∧
     (Service.begin_restore env c s m).1.status = RestorationStatus.Ongoing ∧
     ∃ r, Restoration.new env m = Except.ok r ∧
       (Service.begin_restore env c s m).1.restoration = some r) ∨
    ((Service.begin_restore env c s m).2 = false ∧
     (Service.begin_restore env c s m).1.status = s.status ∧
     (Service.begin_restore env c s m).1.restoration = none) := by
  unfold Service.begin_restore
  dsimp only
  rcases hrm : s.fs.removeDirAll c.restoration_dir with e | f
  · dsimp only [Except.bind]
    cases e with
    | notFound =>
      rcases hnew : Restoration.new env m with e2 | r
      · right; exact ⟨rfl, rfl, rfl⟩
      · left; exact ⟨rfl, rfl, r, rfl, rfl⟩
    | permissionDenied => right; exact ⟨rfl, rfl, rfl⟩
    | other => right; exact ⟨rfl, rfl, rfl⟩
  · dsimp only [Except.bind, FS.createDirAll]
    by_cases hex : f.existsDir c.restoration_dir
    · simp only [hex, if_pos]
      rcases hnew : Restoration.new env m with e2 | r
      · right; exact ⟨rfl, rfl, rfl⟩
      · left; exact ⟨rfl, rfl, r, rfl, rfl⟩
    · simp only [hex, if_neg, if_false]
      rcases hnew : Restoration.new env m with e2 | r
      · right; exact ⟨rfl, rfl, rfl⟩
      · left; exact ⟨rfl, rfl, r, rfl, rfl⟩

/-- C7: begin_restore reports failure with the status left exactly as it
was before the call, reports success only with status Ongoing and a
successfully constructed Restoration installed, and in particular when
removing the restoration directory fails with a permission error it
returns false leaving status and filesystem untouched (only the previous
Restoration has been torn down). -/
theorem begin_restore_false_keeps_status (env : Env) (c : ServiceConfig)
    (s : ServiceState) (m : ManifestData) :
    ((Service.begin_restore env c s m).2 = false →
      (Service.begin_restore env c s m).1.status = s.status) ∧
    ((Service.begin_restore env c s m).2 = true →
      (Service.begin_restore env c s m).1.status = RestorationStatus.Ongoing ∧
      ∃ r, Restoration.new env m = Except.ok r ∧
        (Service.begin_restore env c s m).1.restoration = some r) ∧
    (s.fs.removeDirAll c.restoration_dir = Except.error FsError.permissionDenied →
      Service.begin_restore env c s m = ({ s with restoration := none }, false)) := by
  refine ⟨?_, ?_, ?_⟩
  · intro hf
    rcases begin_restore_cases env c s m with ⟨ht, _, _⟩ | ⟨_, hs, _⟩
    · rw [ht] at hf; exact absurd hf (by simp)
    · exact hs
  · intro ht
    rcases begin_restore_cases env c s m with ⟨_, hs, hr⟩ | ⟨hf, _, _⟩
    · exact ⟨hs, hr⟩
    · rw [hf] at ht; exact absurd ht (by simp)
  · intro hperm
    unfold Service.begin_restore
    dsimp only
    rw [hperm]
    rfl

/-- C7 witness: the permission-locked sample state, where begin_restore
returns false and the Ongoing status of the previous attempt is kept. -/
theorem begin_restore_false_keeps_status_witness :
    Service.begin_restore envOk cfg0 sLocked m0 = ({ sLocked with restoration := none }, false) :=
  (begin_restore_false_keeps_status envOk cfg0 sLocked m0).2.2 (by rfl)

/-- C8, code bug: starting from the state right after service
construction (no restoration directory on disk), begin_restore succeeds
yet the restoration directory still does not exist afterwards: the
NotFound error of remove_dir_all short-circuits the and_then chain, so
create_dir_all is never executed, although the comment in the source and
the spec say the directory is deleted and recreated. -/
theorem begin_restore_missing_dir_not_recreated :
    sFreshBoot.fs.existsDir cfg0.restoration_dir = false ∧
    (Service.begin_restore envOk cfg0 sFreshBoot m0).2 = true ∧
    (Service.begin_restore envOk cfg0 sFreshBoot m0).1.fs.existsDir cfg0.restoration_dir = false := by
  decide

lemma removeDirAll_locked {fs : FS} {p : FsPath} {f : FS}
    (h : fs.removeDirAll p = Except.ok f) : f.locked = fs.locked := by
  unfold FS.removeDirAll at h
  split at h
  · split at h
    · exact Except.noConfusion h
    · injection h with h2
      rw [← h2]
  · exact Except.noConfusion h

lemma rename_locked {fs : FS} {src dst : FsPath} {f : FS}
    (h : fs.rename src dst = Except.ok f) : f.locked = fs.locked := by
  unfold FS.rename at h
  split at h
  · injection h with h2
    rw [← h2]
  · exact Except.noConfusion h

lemma removed_locked (fs : FS) (p : FsPath) :
    (match fs.removeDirAll p with | Except.ok f => f | Except.error _ => fs).locked
      = fs.locked := by
  rcases h : fs.removeDirAll p with e | f
  · rfl
  · exact removeDirAll_locked h

lemma replace_locked (c : ServiceConfig) (fs : FS) (name : String) :
    (Service.replace_client_db c fs name).1.locked = fs.locked := by
  unfold Service.replace_client_db
  dsimp only
  rcases h0 : fs.removeDirAll (c.db_path ++ ["backup_" ++ name]) with e0 | f0
  all_goals dsimp only
  case error =>
    rcases h1 : fs.rename (c.client_db_root ++ [name]) (c.db_path ++ ["backup_" ++ name]) with e1 | f1
    · cases e1 <;> dsimp only
      case notFound =>
        rcases h2 : fs.rename (c.restoration_dir ++ [name]) (c.client_db_root ++ [name]) with e2 | f2
        · rfl
        · exact rename_locked h2
    · dsimp only
      rcases h2 : f1.rename (c.restoration_dir ++ [name]) (c.client_db_root ++ [name]) with e2 | f2
      · dsimp only
        rcases h3 : f1.rename (c.db_path ++ ["backup_" ++ name]) (c.client_db_root ++ [name]) with e3 | f3
        · exact rename_locked h1
        · exact (rename_locked h3).trans (rename_locked h1)
      · dsimp only
        rcases h3 : f2.removeDirAll (c.db_path ++ ["backup_" ++ name]) with e3 | f3
        · exact (rename_locked h2).trans (rename_locked h1)
        · exact (removeDirAll_locked h3).trans ((rename_locked h2).trans (rename_locked h1))
  case ok =>
    have hl0 : f0.locked = fs.locked := removeDirAll_locked h0
    rcases h1 : f0.rename (c.client_db_root ++ [name]) (c.db_path ++ ["backup_" ++ name]) with e1 | f1
    · cases e1 <;> dsimp only
      case notFound =>
        rcases h2 : f0.rename (c.restoration_dir ++ [name]) (c.client_db_root ++ [name]) with e2 | f2
        · exact hl0
        · exact (rename_locked h2).trans hl0
      all_goals exact hl0
    · dsimp only
      rcases h2 : f1.rename (c.restoration_dir ++ [name]) (c.client_db_root ++ [name]) with e2 | f2
      · dsimp only
        rcases h3 : f1.rename (c.db_path ++ ["backup_" ++ name]) (c.client_db_root ++ [name]) with e3 | f3
        · exact (rename_locked h1).trans hl0
        · exact (rename_locked h3).trans ((rename_locked h1).trans hl0)
      · dsimp only
        rcases h3 : f2.removeDirAll (c.db_path ++ ["backup_" ++ name]) with e3 | f3
        · exact (rename_locked h2).trans ((rename_locked h1).trans hl0)
        · exact (removeDirAll_locked h3).trans ((rename_locked h2).trans ((rename_locked h1).trans hl0))

lemma finalize_reader_restoration (c : ServiceConfig) (s : ServiceState) :
    (Service.finalize_restoration c s).1.reader = s.reader ∧
    (Service.finalize_restoration c s).1.restoration = none := by
  unfold Service.finalize_restoration
  dsimp only
  rcases h1 : Service.replace_client_db c s.fs "state" with ⟨f1, e1⟩
  cases e1 with
  | some e => exact ⟨rfl, rfl⟩
  | none =>
    dsimp only
    rcases h2 : Service.replace_client_db c f1 "blocks" with ⟨f2, e2⟩
    cases e2 with
    | some e => exact ⟨rfl, rfl⟩
    | none =>
      dsimp only
      rcases h3 : Service.replace_client_db c f2 "extras" with ⟨f3, e3⟩
      cases e3 with
      | some e => exact ⟨rfl, rfl⟩
      | none => exact ⟨rfl, rfl⟩

lemma finalize_locked (c : ServiceConfig) (s : ServiceState) :
    (Service.finalize_restoration c s).1.fs.locked = s.fs.locked := by
  unfold Service.finalize_restoration
  dsimp only
  rcases h1 : Service.replace_client_db c s.fs "state" with ⟨f1, e1⟩
  have t1 : f1.locked = s.fs.locked := by
    have t := replace_locked c s.fs "state"
    rw [h1] at t
    exact t
  cases e1 with
  | some e => exact t1
  | none =>
    dsimp only
    rcases h2 : Service.replace_client_db c f1 "blocks" with ⟨f2, e2⟩
    have t2 : f2.locked = s.fs.locked := by
      have t := replace_locked c f1 "blocks"
      rw [h2] at t
      exact t.trans t1
    cases e2 with
    | some e => exact t2
    | none =>
      dsimp only
      rcases h3 : Service.replace_client_db c f2 "extras" with ⟨f3, e3⟩
      have t3 : f3.locked = s.fs.locked := by
        have t := replace_locked c f2 "extras"
        rw [h3] at t
        exact t.trans t2
      cases e3 with
      | some e => exact t3
      | none => exact (removed_locked f3 c.restoration_dir).trans t3

lemma feed_chunk_reader_locked (env : Env) (c : ServiceConfig) (s : ServiceState)
    (hash : H256) (chunk : Bytes) (b : Bool) :
    (Service.feed_chunk env c s hash chunk b).1.reader = s.reader ∧
    (Service.feed_chunk env c s hash chunk b).1.fs.locked = s.fs.locked := by
  unfold Service.feed_chunk
  cases hst : s.status <;> dsimp only
  case Inactive => exact ⟨rfl, rfl⟩
  case Failed => exact ⟨rfl, rfl⟩
  case Ongoing =>
    cases hr : s.restoration <;> dsimp only
    case none => exact ⟨rfl, rfl⟩
    case some r =>
      rcases hfed : (if b then Restoration.feed_state env r hash chunk
                     else Restoration.feed_blocks env r hash chunk) with ⟨r2, e2⟩
      cases e2 with
      | some e => exact ⟨rfl, rfl⟩
      | none =>
        dsimp only
        by_cases hd : r2.is_done = true
        · simp only [hd, if_pos]
          exact ⟨(finalize_reader_restoration c
                    { restoration := some r2, status := .Ongoing, fs := s.fs, reader := s.reader }).1,
                 finalize_locked c
                    { restoration := some r2, status := .Ongoing, fs := s.fs, reader := s.reader }⟩
        · simp only [hd, if_neg, if_false]
          exact ⟨rfl, rfl⟩

lemma removed_not_exists (fs : FS) (p : FsPath) (h : fs.locked = []) :
    (match fs.removeDirAll p with
     | Except.ok f => f
     | Except.error _ => fs).existsDir p = false := by
  unfold FS.removeDirAll
  by_cases hex : fs.existsDir p = true
  · simp only [hex, if_true, h, List.any_nil, Bool.false_eq_true, if_false]
    simp only [FS.existsDir, List.any_eq_false, List.mem_filter]
    intro e he
    simp only [Bool.not_eq_true]
    simpa using he.2
  · simp only [hex, if_false]
    simpa using hex

/-- C6: when feed_chunk propagates an error (from the feed or from
finalize), the wrapper drops the Restoration, sets status Failed and
removes the restoration directory, while the reader-backed manifest and
chunk queries answer exactly as before; stated for both wrappers. -/
theorem feed_wrapper_error_fails_reader_unaffected (env : Env) (c : ServiceConfig)
    (s : ServiceState) (hash : H256) (chunk : Bytes)
    (hlock : s.fs.locked = []) :
    ((Service.feed_chunk env c s hash chunk true).2.isSome = true →
      (Service.feed_state_chunk env c s hash chunk).restoration = none ∧
      (Service.feed_state_chunk env c s hash chunk).status = RestorationStatus.Failed ∧
      (Service.feed_state_chunk env c s hash chunk).fs.existsDir c.restoration_dir = false ∧
      (Service.feed_state_chunk env c s hash chunk).manifest = s.manifest ∧
      ∀ h2, (Service.feed_state_chunk env c s hash chunk).chunk h2 = s.chunk h2) ∧
    ((Service.feed_chunk env c s hash chunk false).2.isSome = true →
      (Service.feed_block_chunk env c s hash chunk).restoration = none ∧
      (Service.feed_block_chunk env c s hash chunk).status = RestorationStatus.Failed ∧
      (Service.feed_block_chunk env c s hash chunk).fs.existsDir c.restoration_dir = false ∧
      (Service.feed_block_chunk env c s hash chunk).manifest = s.manifest ∧
      ∀ h2, (Service.feed_block_chunk env c s hash chunk).chunk h2 = s.chunk h2) := by
  constructor
  · intro herr
    have hpres := feed_chunk_reader_locked env c s hash chunk true
    unfold Service.feed_state_chunk
    rcases hFC : Service.feed_chunk env c s hash chunk true with ⟨s1, e⟩
    rw [hFC] at hpres
    cases e with
    | none => rw [hFC] at herr; exact absurd herr (by simp)
    | some e0 =>
      dsimp only at hpres ⊢
      refine ⟨rfl, rfl, removed_not_exists s1.fs c.restoration_dir (hpres.2.trans hlock), ?_, ?_⟩
      · show ServiceState.manifest _ = _
        unfold ServiceState.manifest
        dsimp only
        rw [hpres.1]
      · intro h2
        show ServiceState.chunk _ _ = _
        unfold ServiceState.chunk
        dsimp only
        rw [hpres.1]
  · intro herr
    have hpres := feed_chunk_reader_locked env c s hash chunk false
    unfold Service.feed_block_chunk
    rcases hFC : Service.feed_chunk env c s hash chunk false with ⟨s1, e⟩
    rw [hFC] at hpres
    cases e with
    | none => rw [hFC] at herr; exact absurd herr (by simp)
    | some e0 =>
      dsimp only at hpres ⊢
      refine ⟨rfl, rfl, removed_not_exists s1.fs c.restoration_dir (hpres.2.trans hlock), ?_, ?_⟩
      · show ServiceState.manifest _ = _
        unfold ServiceState.manifest
        dsimp only
        rw [hpres.1]
      · intro h2
        show ServiceState.chunk _ _ = _
        unfold ServiceState.chunk
        dsimp only
        rw [hpres.1]

/-- C6 witness: a state chunk whose decompression fails marks the sample
ongoing restoration Failed while the reader still serves the previous
manifest. -/
theorem feed_wrapper_error_fails_witness :
    (Service.feed_state_chunk envBadSnappy cfg0 sOngoing 5 [1]).status
        = RestorationStatus.Failed ∧
    (Service.feed_state_chunk envBadSnappy cfg0 sOngoing 5 [1]).manifest
        = sOngoing.manifest :=
  ⟨((feed_wrapper_error_fails_reader_unaffected envBadSnappy cfg0 sOngoing 5 [1]
      rfl).1 (by decide)).2.1,
   ((feed_wrapper_error_fails_reader_unaffected envBadSnappy cfg0 sOngoing 5 [1]
      rfl).1 (by decide)).2.2.2.1⟩

/-- C2: finalize_restoration destroys the Restoration unconditionally
(before and regardless of the directory swaps: the returned state holds
none even on error), swaps the stores in the fixed order state, blocks,
extras (an error on the first swap returns before the later ones run),
and when all three swaps succeed it reports success with status Inactive
and the restoration directory tree deleted. -/
theorem finalize_order_and_success (c : ServiceConfig) (s : ServiceState) :
    (Service.finalize_restoration c s).1.restoration = none ∧
    (∀ f1 e, Service.replace_client_db c s.fs "state" = (f1, some e) →
      Service.finalize_restoration c s = ({ s with restoration := none, fs := f1 }, some e)) ∧
    (∀ f1 f2 f3, Service.replace_client_db c s.fs "state" = (f1, none) →
      Service.replace_client_db c f1 "blocks" = (f2, none) →
      Service.replace_client_db c f2 "extras" = (f3, none) →
      (Service.finalize_restoration c s).2 = none ∧
      (Service.finalize_restoration c s).1.status = RestorationStatus.Inactive ∧
      (Service.finalize_restoration c s).1.fs
        = (match f3.removeDirAll c.restoration_dir with
           | Except.ok f => f
           | Except.error _ => f3) ∧
      (f3.locked = [] →
        (Service.finalize_restoration c s).1.fs.existsDir c.restoration_dir = false)) := by
  refine ⟨(finalize_reader_restoration c s).2, ?_, ?_⟩
  · intro f1 e h1
    unfold Service.finalize_restoration
    dsimp only
    rw [h1]
  · intro f1 f2 f3 h1 h2 h3
    have hfs : (Service.finalize_restoration c s).1.fs
        = (match f3.removeDirAll c.restoration_dir with
           | Except.ok f => f
           | Except.error _ => f3) := by
      unfold Service.finalize_restoration
      dsimp only
      rw [h1]
      dsimp only
      rw [h2]
      dsimp only
      rw [h3]
    refine ⟨?_, ?_, hfs, ?_⟩
    · unfold Service.finalize_restoration
      dsimp only
      rw [h1]
      dsimp only
      rw [h2]
      dsimp only
      rw [h3]
    · unfold Service.finalize_restoration
      dsimp only
      rw [h1]
      dsimp only
      rw [h2]
      dsimp only
      rw [h3]
    · intro hf3
      rw [hfs]
      exact removed_not_exists f3 c.restoration_dir hf3

/-- C2 witness: on the sample filesystem all three swaps succeed, so
finalize reports success with status Inactive. -/
theorem finalize_order_and_success_witness :
    (Service.finalize_restoration cfg0 sOngoing).2 = none ∧
    (Service.finalize_restoration cfg0 sOngoing).1.status = RestorationStatus.Inactive := by
  have h := (finalize_order_and_success cfg0 sOngoing).2.2
    (Service.replace_client_db cfg0 sOngoing.fs "state").1
    (Service.replace_client_db cfg0
      (Service.replace_client_db cfg0 sOngoing.fs "state").1 "blocks").1
    (Service.replace_client_db cfg0
      (Service.replace_client_db cfg0
        (Service.replace_client_db cfg0 sOngoing.fs "state").1 "blocks").1 "extras").1
    (by decide) (by decide) (by decide)
  exact ⟨h.1, h.2.1⟩

lemma rename_not_exists {fs : FS} {src dst : FsPath} (h : fs.existsDir src = false) :
    fs.rename src dst = Except.error FsError.notFound := by
  simp [FS.rename, h]

lemma rename_exists_eq {fs : FS} {src dst : FsPath} (h : fs.existsDir src = true) :
    fs.rename src dst = Except.ok
      { fs with dirs := fs.dirs.map (fun e =>
          if List.isPrefixOf src e.1 then (dst ++ e.1.drop src.length, e.2) else e) } := by
  simp [FS.rename, h]

lemma existsDir_false_mem {fs : FS} {p : FsPath} (h : fs.existsDir p = false)
    {e : FsPath × Nat} (he : e ∈ fs.dirs) : List.isPrefixOf p e.1 = false := by
  unfold FS.existsDir at h
  rw [List.any_eq_false] at h
  exact Bool.eq_false_iff.mpr (h e he)

lemma prefix_append_incomparable {our backup r : FsPath}
    (hob : ¬ our <+: backup) (hbo : ¬ backup <+: our) :
    List.isPrefixOf our (backup ++ r) = false := by
  by_cases hpre : List.isPrefixOf our (backup ++ r) = true
  · exfalso
    have h1 := List.isPrefixOf_iff_prefix.mp hpre
    rcases List.prefix_or_prefix_of_prefix h1 (List.prefix_append backup r) with h | h
    · exact hob h
    · exact hbo h
  · exact Bool.eq_false_iff.mpr hpre

lemma rename_away_no_src {g1 : FS} {client our backup : FsPath}
    (hob : ¬ our <+: backup) (hbo : ¬ backup <+: our)
    (hou : g1.existsDir our = false) :
    ({ g1 with dirs := g1.dirs.map (fun e =>
        if List.isPrefixOf client e.1 then (backup ++ e.1.drop client.length, e.2) else e) }
      : FS).existsDir our = false := by
  unfold FS.existsDir
  dsimp only
  rw [List.any_map, List.any_eq_false]
  intro e he
  by_cases hcle : List.isPrefixOf client e.1 = true
  · simp [Function.comp, hcle, prefix_append_incomparable hob hbo]
  · simp [Function.comp, hcle, existsDir_false_mem hou he]

lemma rename_away_has_backup {g1 : FS} {client backup : FsPath}
    (hcl : g1.existsDir client = true) :
    ({ g1 with dirs := g1.dirs.map (fun e =>
        if List.isPrefixOf client e.1 then (backup ++ e.1.drop client.length, e.2) else e) }
      : FS).existsDir backup = true := by
  unfold FS.existsDir at hcl ⊢
  dsimp only
  rw [List.any_eq_true] at hcl
  obtain ⟨e, he, hpe⟩ := hcl
  rw [List.any_map, List.any_eq_true]
  refine ⟨e, he, ?_⟩
  simp only [Function.comp_apply, hpe, if_true]
  rw [ List.isPrefixOf_iff_prefix]
  exact List.prefix_append _ _

lemma roundtrip_dirs {d : List (FsPath × Nat)} {client backup : FsPath}
    (hbex : ∀ e ∈ d, List.isPrefixOf backup e.1 = false) :
    ((d.map (fun e => if List.isPrefixOf client e.1
        then (backup ++ e.1.drop client.length, e.2) else e)).map
      (fun e => if List.isPrefixOf backup e.1
        then (client ++ e.1.drop backup.length, e.2) else e)) = d := by
  rw [List.map_map]
  have hpt : ∀ e ∈ d,
      ((fun e : FsPath × Nat => if List.isPrefixOf backup e.1
          then (client ++ e.1.drop backup.length, e.2) else e) ∘
       (fun e : FsPath × Nat => if List.isPrefixOf client e.1
          then (backup ++ e.1.drop client.length, e.2) else e)) e = id e := by
    intro e he
    by_cases hcle : List.isPrefixOf client e.1 = true
    · have h2 : List.isPrefixOf backup (backup ++ e.1.drop client.length) = true := by
        rw [ List.isPrefixOf_iff_prefix]
        exact List.prefix_append _ _
      have h3 : client ++ e.1.drop client.length = e.1 :=
        List.prefix_iff_eq_append.mp ( List.isPrefixOf_iff_prefix.mp hcle)
      simp only [Function.comp_apply, hcle, if_true, h2, List.drop_left, h3, id]
    · have hc2 : ¬ client <+: e.1 := fun hp => hcle ( List.isPrefixOf_iff_prefix.mpr hp)
      have hb2 : ¬ backup <+: e.1 :=
        fun hp => (Bool.eq_false_iff.mp (hbex e he)) ( List.isPrefixOf_iff_prefix.mpr hp)
      simp [Function.comp_apply, hc2, hb2]
  rw [List.map_congr_left hpt, List.map_id]

/-- C3: in replace_client_db, with fs1 the filesystem after the ignored
backup cleanup (either the cleanup succeeded or the backup was absent),
a missing live store is tolerated: when the live directory does not
exist but the restoration copy does, the swap succeeds.  And when the
rename of the restoration copy into the live location fails (the copy is
missing), the backup is renamed back into the live location before the
error is reported: the call returns an error with the filesystem
restored exactly to fs1.  The path-incomparability hypotheses say the
three directories are not nested inside one another, as in the real
layout. -/
theorem replace_client_db_tolerant_rollback (c : ServiceConfig) (fs : FS) (name : String) :
    ∀ client our backup fs1,
    client = c.client_db_root ++ [name] →
    our = c.restoration_dir ++ [name] →
    backup = c.db_path ++ ["backup_" ++ name] →
    (fs.removeDirAll backup = Except.ok fs1 ∨
      (fs1 = fs ∧ fs.removeDirAll backup = Except.error FsError.notFound)) →
    ((fs1.existsDir client = false → fs1.existsDir our = true →
       (Service.replace_client_db c fs name).2 = none) ∧
     (¬ our <+: backup → ¬ backup <+: our →
      fs1.existsDir backup = false →
      fs1.existsDir client = true → fs1.existsDir our = false →
       (Service.replace_client_db c fs name).2.isSome = true ∧
       (Service.replace_client_db c fs name).1 = fs1)) := by
  intro client our backup fs1 hclient hour hbackup hfs1
  subst hclient
  subst hour
  subst hbackup
  constructor
  · intro hc hoo
    rcases hfs1 with hok | ⟨heq, herr⟩
    · unfold Service.replace_client_db
      dsimp only
      rw [hok]
      dsimp only
      rw [rename_not_exists hc]
      dsimp only
      rw [rename_exists_eq hoo]
      rfl
    · subst heq
      unfold Service.replace_client_db
      dsimp only
      rw [herr]
      dsimp only
      rw [rename_not_exists hc]
      dsimp only
      rw [rename_exists_eq hoo]
      rfl
  · intro hob hbo hbex hcl hou
    rcases hfs1 with hok | ⟨heq, herr⟩
    · unfold Service.replace_client_db
      dsimp only
      rw [hok]
      dsimp only
      rw [rename_exists_eq hcl]
      dsimp only
      rw [rename_not_exists (rename_away_no_src hob hbo hou)]
      dsimp only
      rw [rename_exists_eq (rename_away_has_backup hcl)]
      dsimp only
      refine ⟨rfl, ?_⟩
      have hbexm : ∀ e ∈ fs1.dirs,
          List.isPrefixOf (c.db_path ++ ["backup_" ++ name]) e.1 = false :=
        fun e he => existsDir_false_mem hbex he
      obtain ⟨d1, l1⟩ := fs1
      simp only [if_true]
      simp only [FS.mk.injEq]
      exact ⟨roundtrip_dirs hbexm, trivial⟩
    · subst heq
      unfold Service.replace_client_db
      dsimp only
      rw [herr]
      dsimp only
      rw [rename_exists_eq hcl]
      dsimp only
      rw [rename_not_exists (rename_away_no_src hob hbo hou)]
      dsimp only
      rw [rename_exists_eq (rename_away_has_backup hcl)]
      dsimp only
      refine ⟨rfl, ?_⟩
      have hbexm : ∀ e ∈ fs1.dirs,
          List.isPrefixOf (c.db_path ++ ["backup_" ++ name]) e.1 = false :=
        fun e he => existsDir_false_mem hbex he
      obtain ⟨d1, l1⟩ := fs1
      simp only [if_true]
      simp only [FS.mk.injEq]
      exact ⟨roundtrip_dirs hbexm, trivial⟩

/-- C3 witness: on the sample filesystems, a missing live store is
tolerated (no error), and a missing restoration copy with a live store
present produces an error with the filesystem rolled back unchanged. -/
theorem replace_client_db_tolerant_rollback_witness :
    (Service.replace_client_db cfg0 fs0 "state").2 = none ∧
    (Service.replace_client_db cfg0 fsB "state").2.isSome = true ∧
    (Service.replace_client_db cfg0 fsB "state").1 = fsB := by
  have ha := (replace_client_db_tolerant_rollback cfg0 fs0 "state"
    (cfg0.client_db_root ++ ["state"]) (cfg0.restoration_dir ++ ["state"])
    (cfg0.db_path ++ ["backup_state"]) fs0 rfl rfl (by decide) (Or.inr ⟨rfl, by rfl⟩)).1
    (by decide) (by decide)
  have hb := (replace_client_db_tolerant_rollback cfg0 fsB "state"
    (cfg0.client_db_root ++ ["state"]) (cfg0.restoration_dir ++ ["state"])
    (cfg0.db_path ++ ["backup_state"]) fsB rfl rfl (by decide) (Or.inr ⟨rfl, by rfl⟩)).2
    (by decide) (by decide) (by decide) (by decide) (by decide)
  exact ⟨ha, hb.1, hb.2⟩
